import Mathlib

/-!
Verification development for proc_monitor.c (MagiskHide process monitor).

Each definition below is a shallow embedding of a function or code block of
src/core/jni/magiskhide/proc_monitor.c; comments cite the line numbers of the
embedded code.  C strings are modelled as Lean strings (lists of characters),
side effects (signals, unmounts, remounts, unlinks, symlinks) as explicit
action traces, unbounded C loops as fuel-indexed recursions, and the time
varying results of repeated system calls (read_namespace, umount2, kill) as
input streams.
-/

namespace ProcMonitor

/-! ## Model of the sscanf-style scanning used at proc_monitor.c lines 198-222 -/

/-- Skip leading whitespace, as every sscanf directive used here does. -/
def skipWs : List Char → List Char
  | c :: cs => if c.isWhitespace then skipWs cs else c :: cs
  | [] => []

/-- Value of a list of decimal digit characters. -/
def digitsVal (ds : List Char) : Nat :=
  ds.foldl (fun a c => a * 10 + (c.toNat - 48)) 0

/-- Core of the %d directive: a nonempty run of digits, with the given sign. -/
def scanIntCore (sign : Int) (cs : List Char) : Option (Int × List Char) :=
  let ds := cs.takeWhile Char.isDigit
  if ds.isEmpty then none
  else some (sign * (digitsVal ds : Nat), cs.drop ds.length)

/-- The %d directive of sscanf: skip whitespace, optional sign, digits.
Fails (matching failure, conversion not counted) when no digit follows. -/
def scanInt (cs0 : List Char) : Option (Int × List Char) :=
  match skipWs cs0 with
  | '-' :: cs => scanIntCore (-1) cs
  | '+' :: cs => scanIntCore 1 cs
  | cs => scanIntCore 1 cs

/-- The %Ns directive of sscanf with maximum field width w: skip whitespace,
then read at most w characters up to the next whitespace; fails at end of
input.  Used with w = 256 for processName (line 217/219) and w = 4096 for
mountpoint extraction (lines 110, 119, 134); the width-less %s and %*s
directives are modelled by passing the input length as width. -/
def scanStr (w : Nat) (cs0 : List Char) : Option (String × List Char) :=
  let cs := skipWs cs0
  let tok := (cs.takeWhile (fun c => !c.isWhitespace)).take w
  if tok.isEmpty then none else some (String.mk tok, cs.drop tok.length)

/-- A literal character in an sscanf format: must match the next input char. -/
def expectChar (c : Char) : List Char → Option (List Char)
  | x :: xs => if x = c then some xs else none
  | [] => none

/-- Outcome of one iteration of the monitor loop's parsing phase
(proc_monitor.c lines 198-222) on one raw log line. -/
inductive ParseOutcome
  | crash
  | dropped
  | parsed (pid : Int) (name : String)
deriving DecidableEq, Repr

/-- sscanf(ss, "[%*d %d %*d %*d %256s", &pid, processName) - line 217,
used when the bracketed list contained 6 commas (7 fields).  Each directive
that fails stops the scan with fewer than 2 assigned conversions (none). -/
def scanSeven (cs : List Char) : Option (Int × String) :=
  match expectChar '[' cs with
  | none => none
  | some cs1 =>
    match scanInt cs1 with
    | none => none
    | some (_, cs2) =>
      match scanInt cs2 with
      | none => none
      | some (pid, cs3) =>
        match scanInt cs3 with
        | none => none
        | some (_, cs4) =>
          match scanInt cs4 with
          | none => none
          | some (_, cs5) =>
            match scanStr 256 cs5 with
            | none => none
            | some (name, _) => some (pid, name)

/-- sscanf(ss, "[%*d %d %*d %256s", &pid, processName) - line 219,
used for any other comma count. -/
def scanSix (cs : List Char) : Option (Int × String) :=
  match expectChar '[' cs with
  | none => none
  | some cs1 =>
    match scanInt cs1 with
    | none => none
    | some (_, cs2) =>
      match scanInt cs2 with
      | none => none
      | some (pid, cs3) =>
        match scanInt cs3 with
        | none => none
        | some (_, cs4) =>
          match scanStr 256 cs4 with
          | none => none
          | some (name, _) => some (pid, name)

/-- Lines 204-222 of proc_monitor: ss = strchr(log, '[') locates the bracketed
field list; when no '[' exists ss is NULL and the subsequent strchr(pos, ',')
and sscanf(ss, ...) dereference the NULL pointer - modelled as .crash.
Otherwise commas are counted and replaced by spaces, the 7-field pattern is
used when exactly 6 commas were seen and the other pattern otherwise, and a
line on which the chosen pattern assigns fewer than 2 conversions is dropped
(ret != 2, line 221). -/
def parseNotification (log : String) : ParseOutcome :=
  let cs := log.toList.dropWhile (fun c => c ≠ '[')
  if cs.isEmpty then .crash
  else
    let commas := cs.count ','
    let norm := cs.map (fun c => if c = ',' then ' ' else c)
    match (if commas = 6 then scanSeven norm else scanSix norm) with
    | some (pid, name) => .parsed pid name
    | none => .dropped

/-! ## NamespaceReader and ZygoteLocator (proc_monitor.c lines 52-68) -/

/-- read_namespace (lines 52-59): when access(path, R_OK) fails it returns 1
without touching the output buffer; otherwise xreadlink overwrites the buffer
with the link value and 0 is returned.  accessible is the access(2) outcome,
link the value xreadlink would store, target the buffer's current contents. -/
def read_namespace (accessible : Bool) (link : String) (target : String) : Nat × String :=
  if accessible then (0, link) else (1, target)

/-- The do/while loop of store_zygote_ns (lines 63-66), fuel-indexed: at
iteration t it performs one read_namespace call (outcome acc t, value link t)
into the buffer and repeats while the buffer equals init_ns; on exit the
buffer's contents are recorded as the next SpawnerSet fingerprint (some buf).
The buffer zygote_ns[i] is static storage, so its initial contents are the
empty string. -/
def storeZygoteLoop (acc : Nat → Bool) (link : Nat → String) (init_ns : String) :
    Nat → Nat → String → Option String
  | 0, _, _ => none
  | fuel + 1, t, buf =>
      let buf' := (read_namespace (acc t) (link t) buf).2
      if buf' = init_ns then storeZygoteLoop acc link init_ns fuel (t + 1) buf'
      else some buf'

/-! ## Namespace-confirmation busy-poll (proc_monitor.c lines 228-239) -/

/-- One execution of the inner for loop over zygote_ns (lines 230-237): each
compared entry is preceded by its own read_namespace call, modelled by the
stream reads consumed at counter k; returns whether some entry matched the
freshly read fingerprint, and the read counter afterwards. -/
def innerPass (reads : Nat → String) : List String → Nat → Bool × Nat
  | [], k => (false, k)
  | z :: zs, k => if reads k = z then (true, k + 1) else innerPass reads zs (k + 1)

/-- The outer while(1) loop (lines 228-239), fuel-indexed: ret is reset to 1,
the inner pass runs, and the loop exits (falling through to the SIGSTOP at
line 242) exactly when the pass found no match (if (ret) break).  Returns the
read counter at exit, or none when the fuel is exhausted (the candidate kept
matching a spawner fingerprint). -/
def confirmLoop (reads : Nat → String) (zns : List String) : Nat → Nat → Option Nat
  | 0, _ => none
  | fuel + 1, k =>
      match innerPass reads zns k with
      | (true, k') => confirmLoop reads zns fuel k'
      | (false, k') => some k'

/-- The freeze signal (kill(pid, SIGSTOP), line 242) is reached iff the
confirmation loop exits. -/
def freezeSent (reads : Nat → String) (zns : List String) (fuel : Nat) : Bool :=
  (confirmLoop reads zns fuel 0).isSome

/-! ## Path constants

The values of the macros below come from the header magisk.h, which is not
part of the analyzed source tree (only proc_monitor.c is); their historical
values are used.  All that matters for the claims is which paths the monitor
unlinks and which paths hide_done re-creates symlinks at. -/

/-- Modelled from the spec: value of the MAGISKRC macro from the missing
header magisk.h (the spec describes the markers only as a small fixed set of
well-known absolute paths); its historical value. -/
def MAGISKRC : String := "/init.magisk.rc"

/-- Modelled from the spec: value of the DATABIN macro from the missing
header magisk.h; symlink target only, its exact value decides no claim. -/
def DATABIN : String := "/data/adb/magisk"

/-- Modelled from the spec: value of the MAINIMG macro from the missing
header magisk.h; symlink target only, its exact value decides no claim. -/
def MAINIMG : String := "/data/adb/magisk.img"

/-- Modelled from the spec: value of the MOUNTPOINT macro from the missing
header magisk.h; symlink target only, its exact value decides no claim. -/
def MOUNTPOINT : String := "/sbin/.core/img"

/-! ## Monitor-side actions: hide toggle, dispatch, completion (lines 41-50, 241-262) -/

/-- Side effects of the monitor thread and of the hide_done signal handler. -/
inductive MonAct
  | killStop (ok : Bool)
  | remountRW
  | unlinkMarker (p : String)
  | remountRO
  | incHideQueue
  | forkWorker
  | symlinkMk (target : String) (linkpath : String)
deriving DecidableEq, Repr

/-- The four marker paths unlinked at lines 247-250, in order. -/
def hideMarkerPaths : List String :=
  ["/magisk", "/data/magisk", "/data/magisk.img", MAGISKRC]

/-- Lines 246-260: the actions performed after a successful SIGSTOP - remount
writable, unlink the four markers, remount read-only, ++hide_queue, fork the
hide_daemon worker. -/
def dispatchActs : List MonAct :=
  [MonAct.remountRW] ++ hideMarkerPaths.map MonAct.unlinkMarker
    ++ [MonAct.remountRO, MonAct.incHideQueue, MonAct.forkWorker]

/-- Lines 44-48: the restore block of the hide_done handler - remount
writable, recreate the three marker symlinks, remount read-only. -/
def hideDoneRestoreActs : List MonAct :=
  [MonAct.remountRW, MonAct.symlinkMk DATABIN "/data/magisk",
   MonAct.symlinkMk MAINIMG "/data/magisk.img", MonAct.symlinkMk MOUNTPOINT "/magisk",
   MonAct.remountRO]

/-- Paths deleted by the monitor's hide toggle (extracted from dispatchActs). -/
def deletedMarkerPaths : List String :=
  dispatchActs.filterMap (fun a => match a with | .unlinkMarker p => some p | _ => none)

/-- Paths at which hide_done re-creates symlinks (extracted from the restore
actions). -/
def restoredMarkerPaths : List String :=
  hideDoneRestoreActs.filterMap (fun a => match a with | .symlinkMk _ l => some l | _ => none)

/-- The hide_list scan of the critical region (lines 226-264), after the
namespace-confirmation poll: for each registry entry equal to processName,
kill(pid, SIGSTOP) is attempted; on failure (killOk = false, the candidate
already exited) the vec_for_each loop merely continues with the next entry
(line 242), while on success the toggle/increment/fork actions run and the
scan breaks (line 262).  Signal delivery to an exited pid keeps failing, so
the kill outcome is a fixed killOk. -/
def scanHideList (processName : String) (killOk : Bool) : List String → List MonAct
  | [] => []
  | n :: rest =>
      if processName = n then
        if killOk then MonAct.killStop true :: dispatchActs
        else MonAct.killStop false :: scanHideList processName killOk rest
      else scanHideList processName killOk rest

/-! ## CompletionTracker: hide_queue and the hide_done handler (lines 41-50, 252) -/

/-- Events touching hide_queue: the ++hide_queue at line 252 (dispatch) and
one HIDE_DONE signal delivery, i.e. one run of hide_done (lines 41-50). -/
inductive HideEv
  | dispatch
  | done
deriving DecidableEq, Repr

/-- State: (hide_queue, number of times the restore block has run).  hide_done
decrements hide_queue and runs the restore block exactly when the decremented
value is 0 (line 43). -/
def hideStep : Int × Nat → HideEv → Int × Nat
  | (q, r), .dispatch => (q + 1, r)
  | (q, r), .done => (q - 1, if q - 1 = 0 then r + 1 else r)

/-- State after a sequence of events, from the initial state (0, 0)
(hide_queue is a static int, initially 0, line 23). -/
def hideRun (evs : List HideEv) : Int × Nat :=
  evs.foldl hideStep (0, 0)

/-- Number of dispatch events. -/
def dispCount : List HideEv → Nat
  | [] => 0
  | .dispatch :: t => dispCount t + 1
  | .done :: t => dispCount t

/-- Number of completion events. -/
def doneCount : List HideEv → Nat
  | [] => 0
  | .dispatch :: t => doneCount t
  | .done :: t => doneCount t + 1

/-! ## Worker: hide_daemon (proc_monitor.c lines 77-149) -/

/-- Which of the three unmount passes emitted an unmount. -/
inductive UPass
  | cache
  | tmpfs
  | loopdev
deriving DecidableEq, Repr

/-- Side effects of one hide_daemon run, in order.  readMounts n is the n-th
read of /proc/pid/mounts (lines 90-92 and 127-129); unmount records one
lazy_unmount call (its target, i.e. the second field of the mount line, and
the umount2 outcome, which only affects the log message, lines 70-75). -/
inductive HDAct
  | manageSelinux
  | cleanProps
  | readMounts (n : Nat)
  | unmount (p : UPass) (target : Option String) (ok : Bool)
  | sigcont
  | hideDoneSignal
deriving DecidableEq, Repr

/-- Does the needle occur at the very start of the haystack. -/
def startsWithList : List Char → List Char → Bool
  | [], _ => true
  | _ :: _, [] => false
  | a :: as, b :: bs => (a = b) && startsWithList as bs

/-- Does the needle occur anywhere in the haystack. -/
def occursInList (needle : List Char) : List Char → Bool
  | [] => needle.isEmpty
  | b :: bs => startsWithList needle (b :: bs) || occursInList needle bs

/-- strstr(hay, needle) != NULL. -/
def strstrB (hay needle : String) : Bool :=
  occursInList needle.toList hay.toList

/-- sscanf(line, "%256s", cache_block) - line 98: the first token of the line,
at most 256 characters. -/
def tok1 (line : String) : Option String :=
  (scanStr 256 line.toList).map (fun x => x.1)

/-- sscanf(line, "%*s %4096s", buffer) - lines 110, 119, 134: skip the first
token, read the second (at most 4096 characters); none when the line has
fewer than two tokens (in which case the C leaves the previous buffer
contents in place). -/
def tok2 (line : String) : Option String := do
  let (_, rest) ← scanStr line.length line.toList
  let (t, _) ← scanStr 4096 rest
  pure t

/-- Cache-block discovery (lines 95-104): runs only when has_cache and
cache_block is still empty; scans for the first line containing " /cache "
and stores its first token; if cache_block remains empty, has_cache is
permanently cleared.  Returns the updated (has_cache, cache_block). -/
def discoverCache (has_cache : Bool) (cache_block : String) (mounts : List String) :
    Bool × String :=
  if has_cache && (cache_block == "") then
    match (mounts.find? (fun l => strstrB l " /cache ")).bind tok1 with
    | some b => (true, b)
    | none => (false, "")
  else (has_cache, cache_block)

/-- Line 109: strstr(line, cache_block) and a mountpoint under /system/ or
/vendor/. -/
def cacheMatch (cb : String) (line : String) : Bool :=
  strstrB line cb && (strstrB line " /system/" || strstrB line " /vendor/")

/-- Line 118: tmpfs mounts under /system, /vendor or /sbin. -/
def tmpfsMatch (line : String) : Bool :=
  strstrB line "tmpfs /system" || strstrB line "tmpfs /vendor" || strstrB line "tmpfs /sbin"

/-- Line 133: mounts backed by a loop device. -/
def loopMatch (line : String) : Bool :=
  strstrB line "/dev/block/loop"

/-- One lazy_unmount call on the mountpoint extracted from the line. -/
def lazyUnmountAct (p : UPass) (uok : Option String → Bool) (line : String) : HDAct :=
  .unmount p (tok2 line) (uok (tok2 line))

/-- Lines 107-114: the cache-backed pass over the first mount table. -/
def cachePass (hc : Bool) (cb : String) (uok : Option String → Bool)
    (mounts : List String) : List HDAct :=
  if hc then (mounts.filter (cacheMatch cb)).map (lazyUnmountAct .cache uok) else []

/-- Lines 117-123: the tmpfs pass over the first mount table. -/
def tmpfsPass (uok : Option String → Bool) (mounts : List String) : List HDAct :=
  (mounts.filter tmpfsMatch).map (lazyUnmountAct .tmpfs uok)

/-- Lines 132-138: the loop-device pass over the re-read mount table. -/
def loopPass (uok : Option String → Bool) (mounts : List String) : List HDAct :=
  (mounts.filter loopMatch).map (lazyUnmountAct .loopdev uok)

/-- hide_daemon (lines 77-149).  joinOk is the outcome of switch_mnt_ns (line
87): on failure control jumps to the exit label, skipping every read and
unmount; m1 and m2 are the two reads of /proc/pid/mounts; uok gives each
umount2 outcome.  Every path ends with kill(pid, SIGCONT) (line 142) and,
after the sleep, kill(ppid, HIDE_DONE) (line 147).  Returns the action trace
and the updated (has_cache, cache_block) globals. -/
def hide_daemon (joinOk : Bool) (has_cache : Bool) (cache_block : String)
    (m1 m2 : List String) (uok : Option String → Bool) :
    List HDAct × Bool × String :=
  if joinOk then
    let d := discoverCache has_cache cache_block m1
    ([HDAct.manageSelinux, HDAct.cleanProps, HDAct.readMounts 1]
       ++ cachePass d.1 d.2 uok m1 ++ tmpfsPass uok m1
       ++ [HDAct.readMounts 2] ++ loopPass uok m2
       ++ [HDAct.sigcont, HDAct.hideDoneSignal], d)
  else
    ([HDAct.manageSelinux, HDAct.cleanProps, HDAct.sigcont, HDAct.hideDoneSignal],
     has_cache, cache_block)

/-! ## Theorems about the notification parser (claims C2, C7, C8) -/

/-- A token produced by the %Ns directive has at most N characters. -/
theorem scanStr_length_le {w : Nat} {cs : List Char} {n : String} {r : List Char}
    (h : scanStr w cs = some (n, r)) : n.length ≤ w := by
  simp only [scanStr] at h
  split at h
  · exact absurd h (by simp)
  · rw [Option.some_inj, Prod.ext_iff] at h
    obtain ⟨h1, _⟩ := h
    subst h1
    exact List.length_take_le w _

/-- A name extracted by the 7-field pattern has at most 256 characters. -/
theorem scanSeven_name_le {cs : List Char} {p : Int} {n : String}
    (h : scanSeven cs = some (p, n)) : n.length ≤ 256 := by
  unfold scanSeven at h
  cases h1 : expectChar '[' cs with
  | none => rw [h1] at h; simp at h
  | some cs1 =>
  rw [h1] at h
  dsimp only at h
  cases h2 : scanInt cs1 with
  | none => rw [h2] at h; simp at h
  | some v2 =>
  obtain ⟨i2, cs2⟩ := v2
  rw [h2] at h
  dsimp only at h
  cases h3 : scanInt cs2 with
  | none => rw [h3] at h; simp at h
  | some v3 =>
  obtain ⟨pid, cs3⟩ := v3
  rw [h3] at h
  dsimp only at h
  cases h4 : scanInt cs3 with
  | none => rw [h4] at h; simp at h
  | some v4 =>
  obtain ⟨i4, cs4⟩ := v4
  rw [h4] at h
  dsimp only at h
  cases h5 : scanInt cs4 with
  | none => rw [h5] at h; simp at h
  | some v5 =>
  obtain ⟨i5, cs5⟩ := v5
  rw [h5] at h
  dsimp only at h
  cases h6 : scanStr 256 cs5 with
  | none => rw [h6] at h; simp at h
  | some v6 =>
  obtain ⟨name, rest⟩ := v6
  rw [h6] at h
  dsimp only at h
  simp only [Option.some_inj, Prod.mk.injEq] at h
  obtain ⟨-, hn⟩ := h
  subst hn
  exact scanStr_length_le h6

/-- A name extracted by the fallback pattern has at most 256 characters. -/
theorem scanSix_name_le {cs : List Char} {p : Int} {n : String}
    (h : scanSix cs = some (p, n)) : n.length ≤ 256 := by
  unfold scanSix at h
  cases h1 : expectChar '[' cs with
  | none => rw [h1] at h; simp at h
  | some cs1 =>
  rw [h1] at h
  dsimp only at h
  cases h2 : scanInt cs1 with
  | none => rw [h2] at h; simp at h
  | some v2 =>
  obtain ⟨i2, cs2⟩ := v2
  rw [h2] at h
  dsimp only at h
  cases h3 : scanInt cs2 with
  | none => rw [h3] at h; simp at h
  | some v3 =>
  obtain ⟨pid, cs3⟩ := v3
  rw [h3] at h
  dsimp only at h
  cases h4 : scanInt cs3 with
  | none => rw [h4] at h; simp at h
  | some v4 =>
  obtain ⟨i4, cs4⟩ := v4
  rw [h4] at h
  dsimp only at h
  cases h6 : scanStr 256 cs4 with
  | none => rw [h6] at h; simp at h
  | some v6 =>
  obtain ⟨name, rest⟩ := v6
  rw [h6] at h
  dsimp only at h
  simp only [Option.some_inj, Prod.mk.injEq] at h
  obtain ⟨-, hn⟩ := h
  subst hn
  exact scanStr_length_le h6

/-- Claim C2 (counterexample): the 7-field record [123, 1000, 5555, 2, 1, 10,
com.example.app] and the 6-field record [123, 1000, 5555, 1, com.example.app]
do not parse to processId 5555 and processName com.example.app. -/
theorem bracket_record_parse_cex :
    parseNotification "[123, 1000, 5555, 2, 1, 10, com.example.app]" ≠
        ParseOutcome.parsed 5555 "com.example.app" ∧
    parseNotification "[123, 1000, 5555, 1, com.example.app]" ≠
        ParseOutcome.parsed 5555 "com.example.app" := by
  constructor <;> decide

/-- Claim C2 (amended): on both example records the parser succeeds but
returns processId 1000 (the second bracketed field) and processName "1" (the
fifth field for the 6-comma layout, the fourth otherwise). -/
theorem bracket_record_parse_results :
    parseNotification "[123, 1000, 5555, 2, 1, 10, com.example.app]" =
        ParseOutcome.parsed 1000 "1" ∧
    parseNotification "[123, 1000, 5555, 1, com.example.app]" =
        ParseOutcome.parsed 1000 "1" := by
  constructor <;> decide

/-- Claim C7: a raw notification line containing no bracketed field list is
not silently dropped: strchr(log, '[') returns NULL and the monitor
dereferences it (strchr(pos, ',') and sscanf(ss, ...)), modelled as the crash
outcome. -/
theorem no_bracket_line_crashes :
    parseNotification "am_proc_start: 30 0 10099" = ParseOutcome.crash := by
  decide

set_option maxRecDepth 40000 in
/-- Claim C8 (counterexample): a record whose process-name field has 300
characters is not dropped: the %256s directive truncates it and parsing
succeeds. -/
theorem long_name_not_dropped :
    parseNotification ("[1, 2, 3, " ++ String.mk (List.replicate 300 'a') ++ "]") =
      ParseOutcome.parsed 2 (String.mk (List.replicate 256 'a')) := by
  decide

/-- Claim C8 (amended): a record whose process-name field exceeds the
256-character bound is not dropped; parsing succeeds and every name the
parser ever produces has at most 256 characters (the name is truncated). -/
theorem parsed_name_le_256 (s : String) (p : Int) (n : String)
    (h : parseNotification s = ParseOutcome.parsed p n) : n.length ≤ 256 := by
  simp only [parseNotification] at h
  split at h
  · exact absurd h (by simp)
  · split at h
    · rename_i hsome
      injection h with h1 h2
      subst h1
      subst h2
      split at hsome
      · exact scanSeven_name_le hsome
      · exact scanSix_name_le hsome
    · exact absurd h (by simp)

set_option maxRecDepth 40000 in
/-- Witness for the C8 theorem at the 300-character record. -/
theorem parsed_name_le_256_w :
    (String.mk (List.replicate 256 'a')).length ≤ 256 :=
  parsed_name_le_256 ("[1, 2, 3, " ++ String.mk (List.replicate 300 'a') ++ "]") 2
    (String.mk (List.replicate 256 'a')) (by decide)

/-! ## Theorems about the namespace-confirmation poll (claim C1) -/

/-- An inner pass that reports no match compared every SpawnerSet entry
against a freshly read fingerprint and found each one different. -/
theorem innerPass_false {reads : Nat → String} {zns : List String} {k k' : Nat}
    (h : innerPass reads zns k = (false, k')) :
    k' = k + zns.length ∧
      ∀ i (hi : i < zns.length), reads (k + i) ≠ zns.get ⟨i, hi⟩ := by
  induction zns generalizing k with
  | nil =>
      simp only [innerPass, Prod.mk.injEq] at h
      refine ⟨by simp [h.2.symm], ?_⟩
      intro i hi
      exact absurd hi (by simp)
  | cons z zs ih =>
      rw [innerPass] at h
      split at h
      · exact absurd h (by simp)
      · rename_i hne
        obtain ⟨hlen, hall⟩ := ih h
        constructor
        · simp only [List.length_cons]
          omega
        · intro i hi
          cases i with
          | zero => simpa using hne
          | succ j =>
              have hj : j < zs.length := by simpa using hi
              have h2 := hall j hj
              have hk : k + 1 + j = k + (j + 1) := by omega
              rw [hk] at h2
              exact h2

/-- Claim C1 (counterexample): a candidate whose namespace fingerprint never
equals the sole SpawnerSet fingerprint is frozen immediately: the
confirmation loop exits after its first pass and the SIGSTOP at line 242 is
reached, refuting that the freeze is sent only after a fingerprint match. -/
theorem freeze_reached_without_match :
    freezeSent (fun _ => "mnt:[4026531999]") ["mnt:[4026531841]"] 1 = true ∧
      "mnt:[4026531999]" ≠ "mnt:[4026531841]" := by
  constructor
  · rfl
  · decide

/-- Claim C1 (amended): the confirmation loop polls while the candidate's
fingerprint equals some SpawnerSet entry and falls through to the freeze
signal only after one full pass in which the freshly read fingerprint
differed from every SpawnerSet fingerprint. -/
theorem freeze_only_after_nomatch_pass (reads : Nat → String) (zns : List String)
    (fuel k k' : Nat) (h : confirmLoop reads zns fuel k = some k') :
    ∃ k0, k' = k0 + zns.length ∧
      ∀ i (hi : i < zns.length), reads (k0 + i) ≠ zns.get ⟨i, hi⟩ := by
  induction fuel generalizing k with
  | zero => exact absurd h (by simp [confirmLoop])
  | succ f ih =>
      rw [confirmLoop] at h
      split at h
      · exact ih _ h
      · rename_i k'' heq
        rw [Option.some_inj] at h
        subst h
        exact ⟨k, innerPass_false heq⟩

/-- Witness for the C1 amended theorem: the constant non-matching candidate
exits the loop at read counter 1 after comparing against the single entry. -/
theorem freeze_only_after_nomatch_pass_w :
    ∃ k0, 1 = k0 + (["mnt:[4026531841]"] : List String).length ∧
      ∀ i (hi : i < (["mnt:[4026531841]"] : List String).length),
        (fun _ => "mnt:[4026531999]") (k0 + i) ≠
          (["mnt:[4026531841]"] : List String).get ⟨i, hi⟩ :=
  freeze_only_after_nomatch_pass (fun _ => "mnt:[4026531999]")
    ["mnt:[4026531841]"] 1 0 1 (by decide)

/-! ## Theorems about the ZygoteLocator (claim C10) -/

/-- Claim C10: a failed read_namespace leaves the output buffer unmodified
(returning 1), and consequently when the very first read of a spawner
candidate's namespace fails while init_ns is nonempty, store_zygote_ns exits
its do/while loop at once and records the buffer's prior contents - the empty
string of the zero-initialized static buffer - as a SpawnerSet fingerprint. -/
theorem failed_read_records_stale_ns :
    (∀ link target, read_namespace false link target = (1, target)) ∧
    (∀ (acc : Nat → Bool) (link : Nat → String) (init_ns : String) (fuel : Nat),
      acc 0 = false → init_ns ≠ "" →
      storeZygoteLoop acc link init_ns (fuel + 1) 0 "" = some "") := by
  constructor
  · intro l t
    rfl
  · intro acc link ins fuel h0 h1
    have h2 : ¬ ("" : String) = ins := fun h => h1 h.symm
    simp [storeZygoteLoop, read_namespace, h0, h2]

/-- Witness for the C10 theorem: all reads failing, a nonempty init
fingerprint, fuel 1. -/
theorem failed_read_records_stale_ns_w :
    storeZygoteLoop (fun _ => false) (fun _ => "mnt:[4026531841]")
      "mnt:[4026531840]" 1 0 "" = some "" :=
  failed_read_records_stale_ns.2 (fun _ => false) (fun _ => "mnt:[4026531841]")
    "mnt:[4026531840]" 0 rfl (by decide)

/-! ## Theorems about hide_queue and hide_done (claim C3) -/

/-- The hide_queue component of the state equals dispatches minus
completions. -/
theorem hideRun_fst (evs : List HideEv) :
    ∀ s : Int × Nat,
      (evs.foldl hideStep s).1 = s.1 + (dispCount evs : Int) - (doneCount evs : Int) := by
  induction evs with
  | nil =>
      rintro ⟨q, r⟩
      simp [dispCount, doneCount]
  | cons e t ih =>
      rintro ⟨q, r⟩
      cases e
      · rw [List.foldl_cons]
        rw [ih]
        simp only [hideStep, dispCount, doneCount]
        push_cast
        ring
      · rw [List.foldl_cons]
        rw [ih]
        simp only [hideStep, dispCount, doneCount]
        push_cast
        ring

/-- Unrolling one event from a prefix of the event list. -/
theorem hideRun_take_succ (evs : List HideEv) (n : Nat) (hn : n < evs.length) :
    hideRun (evs.take (n + 1)) = hideStep (hideRun (evs.take n)) (evs.get ⟨n, hn⟩) := by
  unfold hideRun
  rw [List.take_succ, List.foldl_append, List.getElem?_eq_getElem hn]
  rfl

/-- Claim C3: along any event sequence in which, at every prefix, no more
completion signals have been handled than workers dispatched, hide_queue is
never negative; every completion event decrements it by exactly one; and the
restore block runs at an event exactly when that event is a completion that
brings hide_queue from 1 to 0 - never while the counter is nonzero. -/
theorem hide_queue_invariant (evs : List HideEv)
    (h : ∀ n, n ≤ evs.length → doneCount (evs.take n) ≤ dispCount (evs.take n)) :
    (∀ n, n ≤ evs.length → 0 ≤ (hideRun (evs.take n)).1) ∧
    (∀ n (hn : n < evs.length), evs.get ⟨n, hn⟩ = HideEv.done →
        (hideRun (evs.take (n + 1))).1 = (hideRun (evs.take n)).1 - 1) ∧
    (∀ n (hn : n < evs.length),
        ((hideRun (evs.take (n + 1))).2 ≠ (hideRun (evs.take n)).2 ↔
          (evs.get ⟨n, hn⟩ = HideEv.done ∧ (hideRun (evs.take n)).1 = 1))) := by
  refine ⟨?_, ?_, ?_⟩
  · intro n hn
    have hc := h n hn
    have hf := hideRun_fst (evs.take n) (0, 0)
    unfold hideRun
    omega
  · intro n hn he
    rw [hideRun_take_succ evs n hn, he]
    rcases hideRun (evs.take n) with ⟨q, r⟩
    rfl
  · intro n hn
    rw [hideRun_take_succ evs n hn]
    rcases hq : hideRun (evs.take n) with ⟨q, r⟩
    cases hg : evs.get ⟨n, hn⟩
    · simp [hideStep]
    · by_cases h1 : q = 1
      · subst h1
        simp [hideStep]
      · have h0 : ¬ (q - 1 = 0) := by omega
        simp [hideStep, h0, h1]

/-- Witness for the C3 theorem on the two-event trace dispatch, done. -/
theorem hide_queue_invariant_w :
    0 ≤ (hideRun ([HideEv.dispatch, HideEv.done].take 2)).1 :=
  (hide_queue_invariant [HideEv.dispatch, HideEv.done] (by decide)).1 2 (by decide)

/-! ## Theorems about the worker hide_daemon (claims C4, C6) -/

/-- Claim C4: for every input - namespace-join outcome, cached globals, mount
tables and per-unmount outcomes - the worker's trace contains the SIGCONT
resume signal; and when joining the target's mount namespace fails the trace
is exactly the preparation steps followed by SIGCONT and the completion
signal, with every mount-table read and every unmount skipped. -/
theorem worker_always_resumes :
    (∀ (joinOk has_cache : Bool) (cache_block : String) (m1 m2 : List String)
        (uok : Option String → Bool),
        HDAct.sigcont ∈ (hide_daemon joinOk has_cache cache_block m1 m2 uok).1) ∧
    (∀ (has_cache : Bool) (cache_block : String) (m1 m2 : List String)
        (uok : Option String → Bool),
        (hide_daemon false has_cache cache_block m1 m2 uok).1 =
          [HDAct.manageSelinux, HDAct.cleanProps, HDAct.sigcont, HDAct.hideDoneSignal]) := by
  constructor
  · intro j hc cb m1 m2 uok
    cases j
    · simp [hide_daemon]
    · simp [hide_daemon]
  · intro hc cb m1 m2 uok
    rfl

/-- Witness for the C4 theorem at concrete inputs. -/
theorem worker_always_resumes_w :
    HDAct.sigcont ∈ (hide_daemon false true "" [] [] (fun _ => true)).1 :=
  worker_always_resumes.1 false true "" [] [] (fun _ => true)

/-- Claim C6: on the successful-join path the worker's trace decomposes as
the preparation steps and first mount-table read, then a segment of
cache-pass unmounts, then a segment of tmpfs-pass unmounts, then the second
mount-table read, then a segment of loop-device unmounts, then resume and
completion: cache-backed unmounts all precede tmpfs unmounts, which all
precede the re-read, which precedes all loop-device unmounts. -/
theorem unmount_pass_order (hc : Bool) (cb : String) (m1 m2 : List String)
    (uok : Option String → Bool) :
    ∃ A B C : List HDAct,
      (hide_daemon true hc cb m1 m2 uok).1 =
        [HDAct.manageSelinux, HDAct.cleanProps, HDAct.readMounts 1]
          ++ A ++ B ++ [HDAct.readMounts 2] ++ C
          ++ [HDAct.sigcont, HDAct.hideDoneSignal] ∧
      (∀ a ∈ A, ∃ t o, a = HDAct.unmount UPass.cache t o) ∧
      (∀ a ∈ B, ∃ t o, a = HDAct.unmount UPass.tmpfs t o) ∧
      (∀ a ∈ C, ∃ t o, a = HDAct.unmount UPass.loopdev t o) := by
  refine ⟨cachePass (discoverCache hc cb m1).1 (discoverCache hc cb m1).2 uok m1,
          tmpfsPass uok m1, loopPass uok m2, rfl, ?_, ?_, ?_⟩
  · intro a ha
    unfold cachePass at ha
    split at ha
    · simp only [List.mem_map] at ha
      obtain ⟨l, -, rfl⟩ := ha
      exact ⟨_, _, rfl⟩
    · exact absurd ha (by simp)
  · intro a ha
    simp only [tmpfsPass, List.mem_map] at ha
    obtain ⟨l, -, rfl⟩ := ha
    exact ⟨_, _, rfl⟩
  · intro a ha
    simp only [loopPass, List.mem_map] at ha
    obtain ⟨l, -, rfl⟩ := ha
    exact ⟨_, _, rfl⟩

/-- Witness for the C6 theorem at concrete inputs. -/
theorem unmount_pass_order_w :
    ∃ A B C : List HDAct,
      (hide_daemon true false "" [] [] (fun _ => false)).1 =
        [HDAct.manageSelinux, HDAct.cleanProps, HDAct.readMounts 1]
          ++ A ++ B ++ [HDAct.readMounts 2] ++ C
          ++ [HDAct.sigcont, HDAct.hideDoneSignal] ∧
      (∀ a ∈ A, ∃ t o, a = HDAct.unmount UPass.cache t o) ∧
      (∀ a ∈ B, ∃ t o, a = HDAct.unmount UPass.tmpfs t o) ∧
      (∀ a ∈ C, ∃ t o, a = HDAct.unmount UPass.loopdev t o) :=
  unmount_pass_order false "" [] [] (fun _ => false)

/-! ## Theorems about the marker-path round trip (claim C5) -/

/-- Claim C5 (counterexample): the marker at MAGISKRC is deleted by the hide
toggle but is not among the paths at which hide_done re-creates symlinks, so
the recreated set does not equal the deleted set. -/
theorem magiskrc_not_restored :
    MAGISKRC ∈ deletedMarkerPaths ∧ MAGISKRC ∉ restoredMarkerPaths := by
  decide

/-- Claim C5 (amended): the set of paths recreated by the restore action
equals the set of marker paths deleted by the hide toggle minus MAGISKRC -
three of the four deleted markers are restored, MAGISKRC never is. -/
theorem restore_eq_deleted_minus_rc :
    restoredMarkerPaths.toFinset = deletedMarkerPaths.toFinset \ {MAGISKRC} := by
  decide

/-! ## Theorems about the kill-failure path (claim C9) -/

/-- Claim C9: when SIGSTOP delivery to a matched candidate fails (it already
exited), the critical-region scan performs nothing but the failed kill
attempts - one per matching registry entry - so no marker toggle, no
hide_queue increment and no worker fork occur for that candidate, and the
scan returns so the monitor blocks on the next notification. -/
theorem kill_failure_abandons_candidate (processName : String) (hl : List String) :
    scanHideList processName false hl =
      List.replicate (hl.count processName) (MonAct.killStop false) := by
  induction hl with
  | nil => rfl
  | cons n rest ih =>
      rw [scanHideList, List.count_cons]
      by_cases hpn : processName = n
      · subst hpn
        simp [ih, List.replicate_succ]
      · have hb : (n == processName) = false := by
          simp only [beq_eq_false_iff_ne, ne_eq]
          exact fun hc => hpn hc.symm
        simp [hpn, hb, ih]

/-- Witness for the C9 theorem at concrete inputs. -/
theorem kill_failure_abandons_candidate_w :
    scanHideList "com.example.app" false ["com.other", "com.example.app"] =
      List.replicate 1 (MonAct.killStop false) :=
  kill_failure_abandons_candidate "com.example.app" ["com.other", "com.example.app"]

end ProcMonitor
